import Mathlib

/-!
Verification of the vanity-keypair search engine (`solana_vanity.py`).

Python strings are embedded as `List Char`, byte strings as `List Nat`.
The concurrent session is embedded two ways:
* a small-step relation `SessionStep` / `Reachable` over the shared
  `SearchState`, where the lock-protected critical section of `worker`
  (capacity check, append, mnemonic derivation, flag set) is one atomic
  step — this models the mutex `found_lock`; and
* a deterministic linearisation `runLoop` that consumes the stream of
  generated keypairs in lock-acquisition order, embedding
  `generate_vanity_addresses`.
-/

/-- Python `sep.split` for a one-character separator, as in
`pattern.split(',')`: always returns `number of separators + 1` parts. -/
def pySplit (sep : Char) : List Char → List (List Char)
  | [] => [[]]
  | c :: rest =>
    if c = sep then [] :: pySplit sep rest
    else
      match pySplit sep rest with
      | [] => [[c]]
      | part :: parts => (c :: part) :: parts

/-- Python `needle in hay` for strings: `needle` occurs as a contiguous
substring of `hay`. -/
def pyIn (needle : List Char) : List Char → Bool
  | [] => needle.isEmpty
  | c :: rest => needle.isPrefixOf (c :: rest) || pyIn needle rest

/-- Python `pattern * i`: the pattern concatenated with itself `i` times. -/
def pyRepeat (pattern : List Char) (i : Nat) : List Char :=
  (List.replicate i pattern).flatten

/-- Embedding of `check_vanity_pattern` (`solana_vanity.py` lines 61-76).
The `both` branch can raise a `ValueError` (unpacking `pattern.split(',')`
into two names fails unless the pattern holds exactly one comma), so the
result is `Except`: `Except.error` is the Python exception. -/
def check_vanity_pattern (pubkey : List Char) (pattern : List Char)
    (match_type : String := "prefix") : Except String Bool :=
  if match_type = "prefix" then
    Except.ok (pattern.isPrefixOf pubkey)
  else if match_type = "suffix" then
    Except.ok (pattern.isSuffixOf pubkey)
  else if match_type = "contain" then
    Except.ok (pyIn pattern pubkey)
  else if match_type = "repeat" then
    Except.ok ((List.range' 2 3).any fun i => pyIn (pyRepeat pattern i) pubkey)
  else if match_type = "both" then
    match pySplit ',' pattern with
    | [pre, suf] => Except.ok (pre.isPrefixOf pubkey && suf.isSuffixOf pubkey)
    | _ => Except.error "ValueError: pattern.split(',') does not unpack into (prefix, suffix)"
  else
    Except.ok false

/-- Modelled from the spec: the third-party `mnemonic` library's
`Mnemonic("english").to_mnemonic`, which is not part of this repository.
Per the spec it is a deterministic standard entropy-to-mnemonic transform
(checksum + lookup in a fixed 2048-word list, words here represented by
their indices), defined for entropy sizes 16/20/24/28/32 bytes and an
error otherwise. -/
def to_mnemonic (entropy : List Nat) : Except String (List Nat) :=
  if entropy.length = 16 ∨ entropy.length = 20 ∨ entropy.length = 24 ∨
      entropy.length = 28 ∨ entropy.length = 32 then
    Except.ok ((List.range ((entropy.length * 8 + entropy.length / 4) / 11)).map
      fun i => (entropy.foldl (fun acc b => acc * 256 + b) i) % 2048)
  else
    Except.error "ValueError: data length should be one of [16, 20, 24, 28, 32]"

/-- Embedding of `generate_mnemonic_from_private_key` (lines 93-100):
feeds the first 16 bytes of the secret key to the mnemonic transform. -/
def generate_mnemonic_from_private_key (private_key_bytes : List Nat) :
    Except String (List Nat) :=
  to_mnemonic (private_key_bytes.take 16)

/-- A solders `Keypair` as the search engine sees it: the Base58 text of
the public key and the raw secret-seed bytes. -/
structure Keypair where
  pubkey : List Char
  secret : List Nat
deriving DecidableEq

/-- Well-formedness guaranteed by the key generator: `Keypair().secret()`
is always a 32-byte seed. -/
def Keypair.WF (kp : Keypair) : Prop := kp.secret.length = 32

instance (kp : Keypair) : Decidable kp.WF := by
  unfold Keypair.WF; infer_instance

/-- The shared session state (`found_keypairs`, `found_event`, `attempts`),
lines 54-59, reset at the start of `generate_vanity_addresses`. -/
structure SearchState where
  found_keypairs : List Keypair
  found_event : Bool
  attempts : Nat
deriving DecidableEq

/-- The state installed by `generate_vanity_addresses` lines 134-136. -/
def initState : SearchState := ⟨[], false, 0⟩

/-- The critical section of `worker` under `found_lock` (lines 117-127):
capacity check, append, mnemonic derivation, event set. The second
component is `some e` when the mnemonic derivation raises: the exception
escapes the `with` block, so the append has already happened but the
event-set line is never reached. -/
def recordMatch (target_count : Nat) (st : SearchState) (keypair : Keypair) :
    SearchState × Option String :=
  if st.found_keypairs.length < target_count then
    let results := st.found_keypairs ++ [keypair]
    match generate_mnemonic_from_private_key keypair.secret with
    | Except.error e => ({ st with found_keypairs := results }, some e)
    | Except.ok _ =>
      if target_count ≤ results.length then
        ({ st with found_keypairs := results, found_event := true }, none)
      else
        ({ st with found_keypairs := results }, none)
  else
    (st, none)

/-- One iteration of the `worker` loop body (lines 108-127) on a freshly
generated `keypair`: count the attempt, test the pattern, and on a hit run
the critical section. `some e` is an uncaught exception that kills the
worker thread. -/
def workerIter (pattern : List Char) (target_count : Nat) (match_type : String)
    (st : SearchState) (keypair : Keypair) : SearchState × Option String :=
  let st1 : SearchState := { st with attempts := st.attempts + 1 }
  match check_vanity_pattern keypair.pubkey pattern match_type with
  | Except.error e => (st1, some e)
  | Except.ok true => recordMatch target_count st1 keypair
  | Except.ok false => (st1, none)

/-- Whether a keypair passes the line-116 test (no exception and `True`). -/
def isMatch (pattern : List Char) (match_type : String) (kp : Keypair) : Bool :=
  match check_vanity_pattern kp.pubkey pattern match_type with
  | Except.ok true => true
  | _ => false

/-- The worker loops linearised over the stream of generated keypairs in
lock-acquisition order: each element is the keypair of the next loop
iteration to run; iteration stops once `found_event` is observed set
(line 108), or when a worker iteration raises (every later iteration
would raise the same deterministic error, so the stream dies with it). -/
def runLoop (pattern : List Char) (target_count : Nat) (match_type : String) :
    List Keypair → SearchState → SearchState
  | [], st => st
  | keypair :: rest, st =>
    if st.found_event then st
    else
      match workerIter pattern target_count match_type st keypair with
      | (st1, none) => runLoop pattern target_count match_type rest st1
      | (st1, some _) => st1

/-- Embedding of `generate_vanity_addresses` (lines 129-153): reset the
shared state, run the workers over the candidate stream, and hand back the
final state (`found_keypairs` is the returned list; `found_event = true`
is the condition for `found_event.wait()` to return and the session to
terminate). -/
def generate_vanity_addresses (pattern : List Char) (target_count : Nat)
    (match_type : String) (candidates : List Keypair) : SearchState :=
  runLoop pattern target_count match_type candidates initState

/-- One atomic step of the concurrent session: a worker iteration whose
pattern test fails (only the attempt counter moves), a worker that found a
well-formed match executing the lock-protected critical section (even a
late worker racing the shutdown, line 108's check having happened before
the event was set), or the monitor thread reading (no mutation). -/
inductive SessionStep (pattern : List Char) (target_count : Nat)
    (match_type : String) : SearchState → SearchState → Prop
  | attempt (st : SearchState) (keypair : Keypair)
      (h : isMatch pattern match_type keypair = false) :
      SessionStep pattern target_count match_type st
        { st with attempts := st.attempts + 1 }
  | record (st : SearchState) (keypair : Keypair)
      (h : isMatch pattern match_type keypair = true) (hwf : keypair.WF) :
      SessionStep pattern target_count match_type st
        (recordMatch target_count { st with attempts := st.attempts + 1 } keypair).1
  | report (st : SearchState) :
      SessionStep pattern target_count match_type st st

/-- States reachable from the session's initial state under any
interleaving of the atomic steps. -/
inductive Reachable (pattern : List Char) (target_count : Nat)
    (match_type : String) : SearchState → Prop
  | init : Reachable pattern target_count match_type initState
  | step {st st' : SearchState} :
      Reachable pattern target_count match_type st →
      SessionStep pattern target_count match_type st st' →
      Reachable pattern target_count match_type st'

/-! ### Helper lemmas about the embedded Python string primitives -/

theorem pyIn_iff (needle hay : List Char) : pyIn needle hay = true ↔ needle <:+: hay := by
  induction hay with
  | nil => simp [pyIn, List.isEmpty_iff]
  | cons c rest ih => simp [pyIn, ih, List.infix_cons_iff]

theorem pySplit_no_sep (sep : Char) (l : List Char) (h : sep ∉ l) : pySplit sep l = [l] := by
  induction l with
  | nil => rfl
  | cons c rest ih =>
    simp only [List.mem_cons, not_or] at h
    rw [pySplit, if_neg (fun hc => h.1 hc.symm), ih h.2]

theorem pySplit_sep (sep : Char) (pre suf : List Char) (h : sep ∉ pre) :
    pySplit sep (pre ++ sep :: suf) = pre :: pySplit sep suf := by
  induction pre with
  | nil => simp [pySplit]
  | cons c rest ih =>
    simp only [List.mem_cons, not_or] at h
    rw [List.cons_append, pySplit, if_neg (fun hc => h.1 hc.symm), ih h.2]

/-! ### Claims about the pattern matcher -/

/-- C8: `check_vanity_pattern` returns true in the three simple modes
exactly when the pattern is respectively a prefix, a suffix, or a
contiguous substring of the encoded public key. -/
theorem check_vanity_pattern_basic_modes (pubkey pattern : List Char) :
    (check_vanity_pattern pubkey pattern "prefix" = Except.ok true ↔ pattern <+: pubkey) ∧
    (check_vanity_pattern pubkey pattern "suffix" = Except.ok true ↔ pattern <:+ pubkey) ∧
    (check_vanity_pattern pubkey pattern "contain" = Except.ok true ↔ pattern <:+: pubkey) := by
  refine ⟨?_, ?_, ?_⟩ <;> simp [check_vanity_pattern, pyIn_iff]

/-- C6: in `both` mode, for a pattern holding exactly one separator comma
(written `pre ++ ',' :: suf` with comma-free parts), the check succeeds
exactly when the key starts with the part before the comma and ends with
the part after it; a key satisfying only one side does not match. -/
theorem check_vanity_pattern_both_iff (pubkey pre suf : List Char)
    (h1 : ',' ∉ pre) (h2 : ',' ∉ suf) :
    check_vanity_pattern pubkey (pre ++ ',' :: suf) "both" = Except.ok true ↔
      pre <+: pubkey ∧ suf <:+ pubkey := by
  have hs : pySplit ',' (pre ++ ',' :: suf) = [pre, suf] := by
    rw [pySplit_sep _ _ _ h1, pySplit_no_sep _ _ h2]
  simp [check_vanity_pattern, hs]

theorem check_vanity_pattern_both_iff_witness :
    (check_vanity_pattern "abcxyz".toList ("ab".toList ++ ',' :: "yz".toList) "both" =
        Except.ok true ↔
      "ab".toList <+: "abcxyz".toList ∧ "yz".toList <:+ "abcxyz".toList) :=
  check_vanity_pattern_both_iff "abcxyz".toList "ab".toList "yz".toList
    (by decide) (by decide)

/-- C7: in `repeat` mode the check succeeds exactly when the pattern
concatenated with itself `k` times occurs as a contiguous substring for
some `k` among 2, 3 and 4 (Python `range(2, 5)`); no larger repeat count
is searched for. -/
theorem check_vanity_pattern_repeat_iff (pubkey pattern : List Char) :
    check_vanity_pattern pubkey pattern "repeat" = Except.ok true ↔
      ∃ k, 2 ≤ k ∧ k ≤ 4 ∧ (List.replicate k pattern).flatten <:+: pubkey := by
  have hcheck : check_vanity_pattern pubkey pattern "repeat" =
      Except.ok (pyIn (pyRepeat pattern 2) pubkey ||
        (pyIn (pyRepeat pattern 3) pubkey || pyIn (pyRepeat pattern 4) pubkey)) := by
    have hr : List.range' 2 3 = [2, 3, 4] := rfl
    simp [check_vanity_pattern, hr]
  rw [hcheck]
  simp only [Except.ok.injEq, Bool.or_eq_true, pyIn_iff, pyRepeat]
  constructor
  · rintro (h | h | h)
    exacts [⟨2, by omega, by omega, h⟩, ⟨3, by omega, by omega, h⟩,
      ⟨4, by omega, by omega, h⟩]
  · rintro ⟨k, hk2, hk4, h⟩
    interval_cases k
    exacts [Or.inl h, Or.inr (Or.inl h), Or.inr (Or.inr h)]

/-- C10: with the empty pattern, the check returns true on every key in
the four non-`both` modes (the empty string is a prefix, suffix and
substring of every string, and repeated it stays empty), so every
generated keypair passes the worker's line-116 test in those modes. -/
theorem check_vanity_pattern_empty_pattern (kp : Keypair) :
    check_vanity_pattern kp.pubkey [] "prefix" = Except.ok true ∧
    check_vanity_pattern kp.pubkey [] "suffix" = Except.ok true ∧
    check_vanity_pattern kp.pubkey [] "contain" = Except.ok true ∧
    check_vanity_pattern kp.pubkey [] "repeat" = Except.ok true ∧
    isMatch [] "prefix" kp = true ∧ isMatch [] "suffix" kp = true ∧
    isMatch [] "contain" kp = true ∧ isMatch [] "repeat" kp = true := by
  have hp : check_vanity_pattern kp.pubkey [] "prefix" = Except.ok true := by
    simp [check_vanity_pattern]
  have hs : check_vanity_pattern kp.pubkey [] "suffix" = Except.ok true := by
    simp [check_vanity_pattern]
  have hc : check_vanity_pattern kp.pubkey [] "contain" = Except.ok true := by
    simp [check_vanity_pattern, pyIn_iff]
  have hrep : check_vanity_pattern kp.pubkey [] "repeat" = Except.ok true := by
    have h0 : pyIn [] kp.pubkey = true := (pyIn_iff _ _).mpr List.nil_infix
    have hr : List.range' 2 3 = [2, 3, 4] := rfl
    have h2 : pyRepeat [] 2 = [] := rfl
    simp [check_vanity_pattern, hr, h2, h0]
  exact ⟨hp, hs, hc, hrep, by simp [isMatch, hp], by simp [isMatch, hs],
    by simp [isMatch, hc], by simp [isMatch, hrep]⟩

/-! ### Claims about the mnemonic derivation -/

/-- C9: mnemonic derivation is deterministic and consumes exactly the
first 16 bytes of the secret key: seeds of length at least 16 that agree
on their first 16 bytes yield the same phrase (and, being a function, the
same input always yields the same phrase). -/
theorem generate_mnemonic_first16 (s1 s2 : List Nat)
    (h1 : 16 ≤ s1.length) (h2 : 16 ≤ s2.length) (h : s1.take 16 = s2.take 16) :
    generate_mnemonic_from_private_key s1 = generate_mnemonic_from_private_key s2 := by
  unfold generate_mnemonic_from_private_key
  rw [h]

theorem generate_mnemonic_first16_witness :
    16 ≤ (List.range 16).length ∧ 16 ≤ (List.range 16 ++ [99]).length ∧
    generate_mnemonic_from_private_key (List.range 16) =
      generate_mnemonic_from_private_key (List.range 16 ++ [99]) :=
  ⟨by decide, by decide,
    generate_mnemonic_first16 (List.range 16) (List.range 16 ++ [99])
      (by decide) (by decide) (by decide)⟩

/-! ### Claims about the critical section -/

/-- C5 counterexample: with capacity available and a keypair whose seed
has fewer than 16 bytes, the critical section leaves the keypair in the
shared result set (the append happens before the derivation) and the
derivation error escapes, so the result set is not left unchanged as the
claim states. -/
theorem recordMatch_short_seed_appends :
    (recordMatch 1 initState ⟨['A'], [0, 1, 2, 3, 4, 5, 6, 7]⟩).1.found_keypairs =
      [⟨['A'], [0, 1, 2, 3, 4, 5, 6, 7]⟩] ∧
    (recordMatch 1 initState ⟨['A'], [0, 1, 2, 3, 4, 5, 6, 7]⟩).2.isSome = true := by
  constructor <;> rfl

/-- C5 amended: if mnemonic derivation fails for a matched keypair
accepted under capacity (seed shorter than 16 bytes), the keypair has
already been appended to the shared result set, the termination flag is
left as it was (the flag-set line is never reached), and the exception
escapes the critical section — fatal to the worker thread, not merely to
that attempt, with the partial entry remaining in `found_keypairs`. -/
theorem recordMatch_derivation_failure (t : Nat) (st : SearchState) (kp : Keypair)
    (hcap : st.found_keypairs.length < t) (hshort : kp.secret.length < 16) :
    (recordMatch t st kp).1.found_keypairs = st.found_keypairs ++ [kp] ∧
    (recordMatch t st kp).1.found_event = st.found_event ∧
    (recordMatch t st kp).2.isSome = true := by
  have hlen : (kp.secret.take 16).length = kp.secret.length := by
    rw [List.length_take]; omega
  have hcond : ¬((kp.secret.take 16).length = 16 ∨ (kp.secret.take 16).length = 20 ∨
      (kp.secret.take 16).length = 24 ∨ (kp.secret.take 16).length = 28 ∨
      (kp.secret.take 16).length = 32) := by
    rw [hlen]; omega
  have he : generate_mnemonic_from_private_key kp.secret =
      Except.error "ValueError: data length should be one of [16, 20, 24, 28, 32]" := by
    unfold generate_mnemonic_from_private_key to_mnemonic
    rw [if_neg hcond]
  simp [recordMatch, if_pos hcap, he]

theorem recordMatch_derivation_failure_witness :
    initState.found_keypairs.length < 1 ∧ ([0] : List Nat).length < 16 ∧
    ((recordMatch 1 initState ⟨['B'], [0]⟩).1.found_keypairs =
        initState.found_keypairs ++ [⟨['B'], [0]⟩] ∧
      (recordMatch 1 initState ⟨['B'], [0]⟩).1.found_event = initState.found_event ∧
      (recordMatch 1 initState ⟨['B'], [0]⟩).2.isSome = true) :=
  ⟨by decide, by decide,
    recordMatch_derivation_failure 1 initState ⟨['B'], [0]⟩ (by decide) (by decide)⟩

/-- For a well-formed (32-byte-seed) keypair the derivation never raises,
and the critical section is exactly: append when under capacity, and set
the flag when the append reaches the target. -/
theorem recordMatch_wf_eq (t : Nat) (st : SearchState) (kp : Keypair) (hwf : kp.WF) :
    (recordMatch t st kp).1 =
      if st.found_keypairs.length < t then
        { st with
            found_keypairs := st.found_keypairs ++ [kp],
            found_event := (if t ≤ st.found_keypairs.length + 1 then true else st.found_event) }
      else st := by
  have h16 : (kp.secret.take 16).length = 16 := by
    rw [List.length_take]
    unfold Keypair.WF at hwf
    omega
  have hok : generate_mnemonic_from_private_key kp.secret =
      Except.ok ((List.range (((kp.secret.take 16).length * 8 +
          (kp.secret.take 16).length / 4) / 11)).map
        fun i => ((kp.secret.take 16).foldl (fun acc b => acc * 256 + b) i) % 2048) := by
    unfold generate_mnemonic_from_private_key to_mnemonic
    rw [if_pos (Or.inl h16)]
  by_cases hc : st.found_keypairs.length < t
  · by_cases h2 : t ≤ st.found_keypairs.length + 1
    · simp [recordMatch, hok, hc, h2]
    · simp [recordMatch, hok, hc, h2]
  · simp [recordMatch, hc]

/-- The session invariant maintained by every interleaving: the result
set never exceeds the target, the event is set only at the full target,
and (for a positive target) reaching the target sets the event. -/
def SessionInv (t : Nat) (st : SearchState) : Prop :=
  st.found_keypairs.length ≤ t ∧
  (st.found_event = true → st.found_keypairs.length = t) ∧
  (st.found_keypairs.length = t → 1 ≤ t → st.found_event = true)

theorem sessionInv_init (t : Nat) : SessionInv t initState := by
  refine ⟨by simp [initState], by simp [initState], ?_⟩
  intro h h1
  exfalso
  simp [initState] at h
  omega

theorem sessionInv_step {p : List Char} {t : Nat} {mt : String}
    {st st' : SearchState} (hinv : SessionInv t st)
    (hstep : SessionStep p t mt st st') : SessionInv t st' := by
  cases hstep with
  | attempt kp h => exact hinv
  | report => exact hinv
  | record kp h hwf =>
    obtain ⟨h1, h2, h3⟩ := hinv
    rw [recordMatch_wf_eq _ _ _ hwf]
    obtain ⟨fk, ev, att⟩ := st
    simp only at h1 h2 h3 ⊢
    by_cases hc : fk.length < t
    · rw [if_pos hc]
      by_cases hfull : t ≤ fk.length + 1
      · rw [if_pos hfull]
        refine ⟨by simp; omega, by simp; omega, fun _ _ => rfl⟩
      · rw [if_neg hfull]
        refine ⟨by simp; omega, ?_, ?_⟩
        · intro hev
          have := h2 hev
          simp
          omega
        · intro hl h1t
          exfalso
          simp at hl
          omega
    · rw [if_neg hc]
      exact ⟨h1, h2, h3⟩

theorem reachable_inv {p : List Char} {t : Nat} {mt : String} {st : SearchState}
    (h : Reachable p t mt st) : SessionInv t st := by
  induction h with
  | init => exact sessionInv_init t
  | step hre hstep ih => exact sessionInv_step ih hstep

/-- C2: at every reachable state of a session, under any interleaving of
worker and reporter steps — the capacity check, append and flag-set being
one atomic unit under the result lock (`found_lock`) — the number of
collected keypairs never exceeds the target. -/
theorem found_keypairs_le_target (p : List Char) (t : Nat) (mt : String)
    (st : SearchState) (h : Reachable p t mt st) :
    st.found_keypairs.length ≤ t :=
  (reachable_inv h).1

/-- A demonstration keypair with the key generator's 32-byte seed shape. -/
def demoKP : Keypair := ⟨['A'], List.replicate 32 0⟩

/-- The state after one accepted match in a `target_count = 1` session on
the empty pattern. -/
def demoState : SearchState :=
  (recordMatch 1 { initState with attempts := initState.attempts + 1 } demoKP).1

theorem demoState_reachable : Reachable [] 1 "prefix" demoState :=
  Reachable.step Reachable.init
    (SessionStep.record initState demoKP (by decide) (by decide))

theorem found_keypairs_le_target_witness :
    demoState.found_keypairs.length ≤ 1 :=
  found_keypairs_le_target [] 1 "prefix" demoState demoState_reachable

/-- The critical section never clears a set event: whatever branch is
taken (capacity refusal, derivation error, append), `found_event` stays
true once true. -/
theorem recordMatch_event_mono (t : Nat) (st : SearchState) (kp : Keypair)
    (hev : st.found_event = true) : (recordMatch t st kp).1.found_event = true := by
  by_cases hc : st.found_keypairs.length < t
  · cases hm : generate_mnemonic_from_private_key kp.secret with
    | error e => simp [recordMatch, hc, hm, hev]
    | ok m =>
      by_cases h2 : t ≤ st.found_keypairs.length + 1
      · simp [recordMatch, hc, hm, h2]
      · simp [recordMatch, hc, hm, h2, hev]
  · simp [recordMatch, hc, hev]

/-- C3: the termination flag is a one-way monotonic transition: in a
session with positive target, every reachable state whose result count
equals the target has the event set, and no step of any worker or of the
reporter ever clears a set event. -/
theorem found_event_monotone (p : List Char) (t : Nat) (mt : String)
    (st st' : SearchState) (ht : 1 ≤ t) (hre : Reachable p t mt st)
    (hstep : SessionStep p t mt st st') :
    (st.found_keypairs.length = t → st.found_event = true) ∧
    (st.found_event = true → st'.found_event = true) := by
  constructor
  · intro hlen
    exact (reachable_inv hre).2.2 hlen ht
  · intro hev
    cases hstep with
    | attempt kp h => exact hev
    | report => exact hev
    | record kp h hwf => exact recordMatch_event_mono t _ kp hev

theorem found_event_monotone_witness :
    (demoState.found_keypairs.length = 1 → demoState.found_event = true) ∧
    (demoState.found_event = true → demoState.found_event = true) :=
  found_event_monotone [] 1 "prefix" demoState demoState (by decide)
    demoState_reachable (SessionStep.report demoState)

/-! ### The linearised session run -/

theorem runLoop_of_event (p : List Char) (t : Nat) (mt : String)
    (cs : List Keypair) (st : SearchState) (hev : st.found_event = true) :
    runLoop p t mt cs st = st := by
  cases cs with
  | nil => rfl
  | cons kp rest => simp [runLoop, hev]

theorem workerIter_no_match (p : List Char) (t : Nat) (mt : String)
    (st : SearchState) (kp : Keypair)
    (hb : check_vanity_pattern kp.pubkey p mt = Except.ok false) :
    workerIter p t mt st kp = ({ st with attempts := st.attempts + 1 }, none) := by
  unfold workerIter
  rw [hb]

theorem workerIter_match (p : List Char) (t : Nat) (mt : String)
    (st : SearchState) (kp : Keypair)
    (hb : check_vanity_pattern kp.pubkey p mt = Except.ok true) :
    workerIter p t mt st kp = recordMatch t { st with attempts := st.attempts + 1 } kp := by
  unfold workerIter
  rw [hb]

theorem isMatch_eq_of_check (p : List Char) (mt : String) (kp : Keypair) (b : Bool)
    (hb : check_vanity_pattern kp.pubkey p mt = Except.ok b) :
    isMatch p mt kp = b := by
  unfold isMatch
  rw [hb]
  cases b <;> rfl

theorem recordMatch_wf_none (t : Nat) (st : SearchState) (kp : Keypair) (hwf : kp.WF) :
    (recordMatch t st kp).2 = none := by
  have h16 : (kp.secret.take 16).length = 16 := by
    rw [List.length_take]
    unfold Keypair.WF at hwf
    omega
  have hok : ∃ m, generate_mnemonic_from_private_key kp.secret = Except.ok m := by
    unfold generate_mnemonic_from_private_key to_mnemonic
    rw [if_pos (Or.inl h16)]
    exact ⟨_, rfl⟩
  obtain ⟨m, hm⟩ := hok
  by_cases hc : st.found_keypairs.length < t
  · by_cases h2 : t ≤ st.found_keypairs.length + 1
    · simp [recordMatch, hm, hc, h2]
    · simp [recordMatch, hm, hc, h2]
  · simp [recordMatch, hc]

theorem runLoop_cons_none (p : List Char) (t : Nat) (mt : String)
    (kp : Keypair) (rest : List Keypair) (st st1 : SearchState)
    (hev : st.found_event = false)
    (hiter : workerIter p t mt st kp = (st1, none)) :
    runLoop p t mt (kp :: rest) st = runLoop p t mt rest st1 := by
  simp [runLoop, hev, hiter]

/-- Completeness of the linearised run: starting under capacity with the
event clear, if the remaining candidate stream holds enough matches (all
keypairs well-formed, the pattern check never raising), the run ends with
the event set and the results extended by exactly the missing number of
matches, in stream order. -/
theorem runLoop_reaches_target (p : List Char) (t : Nat) (mt : String) :
    ∀ (cs : List Keypair) (st : SearchState),
    st.found_event = false →
    st.found_keypairs.length < t →
    (∀ kp ∈ cs, kp.WF) →
    (∀ kp ∈ cs, ∃ b, check_vanity_pattern kp.pubkey p mt = Except.ok b) →
    t - st.found_keypairs.length ≤ (cs.filter (isMatch p mt)).length →
    (runLoop p t mt cs st).found_event = true ∧
    (runLoop p t mt cs st).found_keypairs =
      st.found_keypairs ++ (cs.filter (isMatch p mt)).take (t - st.found_keypairs.length) := by
  intro cs
  induction cs with
  | nil =>
    intro st hev hlen hwf hok henough
    exfalso
    simp at henough
    omega
  | cons kp rest ih =>
    intro st hev hlen hwf hok henough
    obtain ⟨fk, ev, att⟩ := st
    simp only at hev hlen henough ⊢
    subst hev
    obtain ⟨b, hb⟩ := hok kp (by simp)
    have hwfkp : kp.WF := hwf kp (by simp)
    have hmatch : isMatch p mt kp = b := isMatch_eq_of_check p mt kp b hb
    cases b with
    | false =>
      rw [runLoop_cons_none p t mt kp rest _ _ rfl
        (workerIter_no_match p t mt ⟨fk, false, att⟩ kp hb)]
      have hfilter : (kp :: rest).filter (isMatch p mt) = rest.filter (isMatch p mt) := by
        simp [List.filter_cons, hmatch]
      rw [hfilter] at henough ⊢
      exact ih ⟨fk, false, att + 1⟩ rfl hlen
        (fun k hk => hwf k (by simp [hk])) (fun k hk => hok k (by simp [hk])) henough
    | true =>
      have hiter : workerIter p t mt ⟨fk, false, att⟩ kp =
          ((recordMatch t ⟨fk, false, att + 1⟩ kp).1, none) := by
        rw [workerIter_match p t mt ⟨fk, false, att⟩ kp hb,
          ← recordMatch_wf_none t ⟨fk, false, att + 1⟩ kp hwfkp]
      rw [runLoop_cons_none p t mt kp rest _ _ rfl hiter]
      rw [recordMatch_wf_eq t ⟨fk, false, att + 1⟩ kp hwfkp]
      have hfilter : (kp :: rest).filter (isMatch p mt) =
          kp :: rest.filter (isMatch p mt) := by
        simp [List.filter_cons, hmatch]
      rw [hfilter] at henough ⊢
      simp only [List.length_cons] at henough
      rw [if_pos (show (SearchState.mk fk false (att + 1)).found_keypairs.length < t from hlen)]
      dsimp only
      by_cases hfull : t ≤ fk.length + 1
      · rw [if_pos hfull]
        rw [runLoop_of_event p t mt rest _ rfl]
        refine ⟨rfl, ?_⟩
        have h1 : t - fk.length = 1 := by omega
        simp [h1]
      · rw [if_neg hfull]
        have hlen1 : ((SearchState.mk (fk ++ [kp]) false (att + 1)).found_keypairs.length) < t := by
          simp
          omega
        obtain ⟨ih1, ih2⟩ := ih ⟨fk ++ [kp], false, att + 1⟩ rfl hlen1
          (fun k hk => hwf k (by simp [hk])) (fun k hk => hok k (by simp [hk]))
          (by simp; omega)
        refine ⟨ih1, ?_⟩
        rw [ih2]
        obtain ⟨m, hm⟩ : ∃ m, t - fk.length = m + 1 := ⟨t - fk.length - 1, by omega⟩
        have hm2 : t - (SearchState.mk (fk ++ [kp]) false (att + 1)).found_keypairs.length = m := by
          simp
          omega
        rw [hm, hm2]
        simp [List.take_succ_cons]

/-- C1: for a session with positive target over a candidate stream of
well-formed generated keypairs on which the pattern check never raises
and which holds at least `target_count` matches (the unbounded attempt
budget), the session sets `found_event` (so `found_event.wait()` returns,
every worker exits its loop and the joins complete) and returns exactly
the first `target_count` matching keypairs in acceptance order, every one
of which passes `check_vanity_pattern`. -/
theorem generate_vanity_addresses_correct (p : List Char) (t : Nat) (mt : String)
    (cs : List Keypair) (ht : 1 ≤ t)
    (hwf : ∀ kp ∈ cs, kp.WF)
    (hok : ∀ kp ∈ cs, ∃ b, check_vanity_pattern kp.pubkey p mt = Except.ok b)
    (henough : t ≤ (cs.filter (isMatch p mt)).length) :
    (generate_vanity_addresses p t mt cs).found_event = true ∧
    (generate_vanity_addresses p t mt cs).found_keypairs =
      (cs.filter (isMatch p mt)).take t ∧
    (generate_vanity_addresses p t mt cs).found_keypairs.length = t ∧
    ∀ kp ∈ (generate_vanity_addresses p t mt cs).found_keypairs,
      isMatch p mt kp = true := by
  obtain ⟨he, hres⟩ := runLoop_reaches_target p t mt cs initState rfl
    (show initState.found_keypairs.length < t from ht) hwf hok
    (show t - initState.found_keypairs.length ≤ _ from henough)
  have hres2 : (generate_vanity_addresses p t mt cs).found_keypairs =
      (cs.filter (isMatch p mt)).take t := hres
  refine ⟨he, hres2, ?_, ?_⟩
  · rw [hres2, List.length_take]
    omega
  · intro kp hkp
    rw [hres2] at hkp
    exact List.of_mem_filter (List.mem_of_mem_take hkp)

theorem generate_vanity_addresses_correct_witness :
    (generate_vanity_addresses [] 1 "prefix" [demoKP]).found_event = true ∧
    (generate_vanity_addresses [] 1 "prefix" [demoKP]).found_keypairs =
      (([demoKP] : List Keypair).filter (isMatch [] "prefix")).take 1 ∧
    (generate_vanity_addresses [] 1 "prefix" [demoKP]).found_keypairs.length = 1 ∧
    ∀ kp ∈ (generate_vanity_addresses [] 1 "prefix" [demoKP]).found_keypairs,
      isMatch [] "prefix" kp = true :=
  generate_vanity_addresses_correct [] 1 "prefix" [demoKP] (by decide) (by decide)
    (fun kp hk => by
      simp only [List.mem_singleton] at hk
      subst hk
      exact ⟨true, rfl⟩)
    (by decide)

/-! ### Configuration errors are not pre-validated -/

/-- C4 counterexample: for a `both` session whose pattern lacks the
separator comma, nothing is detected before the session starts — the
session runs its workers, the `ValueError` from unpacking
`pattern.split(',')` is raised inside the very first worker hot-loop
iteration, and the session's termination event is never set. -/
theorem both_missing_separator_hot_loop :
    (workerIter ['a', 'b'] 1 "both" initState demoKP).2.isSome = true ∧
    (generate_vanity_addresses ['a', 'b'] 1 "both" [demoKP]).found_event = false ∧
    check_vanity_pattern demoKP.pubkey ['a', 'b'] "both" =
      Except.error "ValueError: pattern.split(',') does not unpack into (prefix, suffix)" := by
  refine ⟨by decide, by decide, rfl⟩

theorem runLoop_cons_some (p : List Char) (t : Nat) (mt : String)
    (kp : Keypair) (rest : List Keypair) (st st1 : SearchState) (e : String)
    (hev : st.found_event = false)
    (hiter : workerIter p t mt st kp = (st1, some e)) :
    runLoop p t mt (kp :: rest) st = st1 := by
  simp [runLoop, hev, hiter]

/-- With a non-positive target the capacity check `len < target_count`
never passes, so nothing is ever appended and the event is never set: the
session never terminates instead of failing fast. -/
theorem runLoop_target_zero (p : List Char) (mt : String) :
    ∀ (cs : List Keypair) (st : SearchState),
      st.found_event = false →
      (runLoop p 0 mt cs st).found_event = false ∧
      (runLoop p 0 mt cs st).found_keypairs = st.found_keypairs := by
  intro cs
  induction cs with
  | nil =>
    intro st hev
    exact ⟨hev, rfl⟩
  | cons kp rest ih =>
    intro st hev
    cases hcv : check_vanity_pattern kp.pubkey p mt with
    | error e =>
      have hiter : workerIter p 0 mt st kp =
          ({ st with attempts := st.attempts + 1 }, some e) := by
        unfold workerIter
        rw [hcv]
      rw [runLoop_cons_some p 0 mt kp rest st _ e hev hiter]
      exact ⟨hev, rfl⟩
    | ok b =>
      cases b with
      | false =>
        rw [runLoop_cons_none p 0 mt kp rest st _ hev (workerIter_no_match p 0 mt st kp hcv)]
        exact ih _ hev
      | true =>
        have hrm : recordMatch 0 { st with attempts := st.attempts + 1 } kp =
            ({ st with attempts := st.attempts + 1 }, none) := by
          simp [recordMatch]
        have hiter : workerIter p 0 mt st kp =
            ({ st with attempts := st.attempts + 1 }, none) := by
          rw [workerIter_match p 0 mt st kp hcv, hrm]
        rw [runLoop_cons_none p 0 mt kp rest st _ hev hiter]
        exact ih _ hev

/-- C4 amended: `generate_vanity_addresses` performs no validation before
starting the session. For a `both` pattern lacking its separator the
missing-separator `ValueError` is raised inside every worker hot-loop
iteration (it is not detected before the session starts), and a
non-positive target count is not rejected: with target 0 no match is
ever recorded and the termination event is never set, so the session
never terminates rather than failing fast. -/
theorem config_errors_raised_in_hot_loop :
    (∀ (pattern : List Char) (t : Nat) (st : SearchState) (kp : Keypair),
      ',' ∉ pattern → (workerIter pattern t "both" st kp).2.isSome = true) ∧
    (∀ (p : List Char) (mt : String) (cs : List Keypair),
      (generate_vanity_addresses p 0 mt cs).found_event = false ∧
      (generate_vanity_addresses p 0 mt cs).found_keypairs = []) := by
  constructor
  · intro pattern t st kp hnc
    have hs : pySplit ',' pattern = [pattern] := pySplit_no_sep ',' pattern hnc
    have hc : check_vanity_pattern kp.pubkey pattern "both" =
        Except.error "ValueError: pattern.split(',') does not unpack into (prefix, suffix)" := by
      simp [check_vanity_pattern, hs]
    simp [workerIter, hc]
  · intro p mt cs
    exact runLoop_target_zero p mt cs initState rfl

theorem config_errors_raised_in_hot_loop_witness :
    (',' ∉ (['a', 'b'] : List Char)) ∧
    (workerIter ['a', 'b'] 3 "both" initState demoKP).2.isSome = true ∧
    ((generate_vanity_addresses [] 0 "contain" [demoKP]).found_event = false ∧
      (generate_vanity_addresses [] 0 "contain" [demoKP]).found_keypairs = []) :=
  ⟨by decide,
    config_errors_raised_in_hot_loop.1 ['a', 'b'] 3 initState demoKP (by decide),
    config_errors_raised_in_hot_loop.2 [] "contain" [demoKP]⟩
